import Mathlib

/-!
Shallow embedding of the Transaction-Processor repository.

Source files embedded: src/client.rs, src/transaction.rs, src/processor.rs.
Monetary amounts (`f64` in the source) are modelled as exact rationals,
matching the spec's "decimal funds"; balances in every scenario used below
are small integers, on which `f64` arithmetic is exact as well.
Rust's in-place mutation is modelled by explicit state passing: a method
returning `bool` becomes a function returning `Bool × Client`.
The two `HashMap`s of `TransactionProcessor` are modelled as association
lists with in-place-replacing insertion (`insertA`); `write_csv_to_stream`
iterates over the values of the client collection, so the rows of the
exported snapshot are exactly the entries of that association list.
-/

/-- Modelled from the spec: the repository's `types.rs` module is not under
src/; the spec describes account and transaction IDs as externally assigned
unsigned integers, so both aliases are modelled as `Nat`. -/
abbrev ClientID := Nat

/-- Modelled from the spec: transaction IDs are unsigned integers
(`types.rs` is not under src/). -/
abbrev TransactionID := Nat

/-- Struct representing a Client's info (src/client.rs, lines 6-17). -/
structure Client where
  id : ClientID
  available : ℚ
  held : ℚ
  total : ℚ
  locked : Bool
  deriving DecidableEq, Repr

/-- `Client::new` (src/client.rs, lines 21-29). -/
def Client.new (id : ClientID) : Client :=
  { id := id, available := 0, held := 0, total := 0, locked := false }

/-- `Client::add_funds` (src/client.rs, lines 68-78): only adds funds if the
account is not locked; returns the success flag together with the new state. -/
def Client.add_funds (c : Client) (amount : ℚ) : Bool × Client :=
  if c.locked = false then
    (true, { c with available := c.available + amount, total := c.total + amount })
  else
    (false, c)

/-- `Client::remove_funds` (src/client.rs, lines 84-95): only removes funds if
the account is not locked and the required funds are available. -/
def Client.remove_funds (c : Client) (amount : ℚ) : Bool × Client :=
  if c.available ≥ amount ∧ c.locked = false then
    (true, { c with available := c.available - amount, total := c.total - amount })
  else
    (false, c)

/-- `Client::hold_funds` (src/client.rs, lines 100-110): only holds funds if
the account is not locked; there is no check of `available ≥ amount`. -/
def Client.hold_funds (c : Client) (amount : ℚ) : Bool × Client :=
  if c.locked = false then
    (true, { c with available := c.available - amount, held := c.held + amount })
  else
    (false, c)

/-- `Client::restore_funds` (src/client.rs, lines 116-127): only restores funds
if the account is not locked and the required held funds are available. -/
def Client.restore_funds (c : Client) (amount : ℚ) : Bool × Client :=
  if c.held ≥ amount ∧ c.locked = false then
    (true, { c with available := c.available + amount, held := c.held - amount })
  else
    (false, c)

/-- `Client::lock` (src/client.rs, lines 132-134): unconditionally locks. -/
def Client.lock (c : Client) : Client :=
  { c with locked := true }

/-- `TransactionType` (src/transaction.rs, lines 21-27). -/
inductive TransactionType where
  | Deposit
  | Withdrawal
  | Dispute
  | Resolve
  | Chargeback
  deriving DecidableEq, Repr

/-- Struct representing a transaction (src/transaction.rs, lines 7-16). -/
structure Transaction where
  typ : TransactionType
  client : ClientID
  id : TransactionID
  amount : Option ℚ
  in_dispute : Bool
  deriving DecidableEq, Repr

/-- `Transaction::new_deposit` (src/transaction.rs, lines 32-41). -/
def Transaction.new_deposit (client : ClientID) (id : TransactionID)
    (amount : ℚ) (in_dispute : Bool) : Transaction :=
  { typ := .Deposit, client := client, id := id, amount := some amount,
    in_dispute := in_dispute }

/-- `Transaction::new_withdrawl` (src/transaction.rs, lines 45-54; the
source spells it without the second "a"). -/
def Transaction.new_withdrawl (client : ClientID) (id : TransactionID)
    (amount : ℚ) (in_dispute : Bool) : Transaction :=
  { typ := .Withdrawal, client := client, id := id, amount := some amount,
    in_dispute := in_dispute }

/-- `Transaction::new_dispute` (src/transaction.rs, lines 58-66). -/
def Transaction.new_dispute (client : ClientID) (id : TransactionID) : Transaction :=
  { typ := .Dispute, client := client, id := id, amount := none, in_dispute := false }

/-- `Transaction::new_resolve` (src/transaction.rs, lines 70-78). -/
def Transaction.new_resolve (client : ClientID) (id : TransactionID) : Transaction :=
  { typ := .Resolve, client := client, id := id, amount := none, in_dispute := false }

/-- `Transaction::new_chargeback` (src/transaction.rs, lines 82-90). -/
def Transaction.new_chargeback (client : ClientID) (id : TransactionID) : Transaction :=
  { typ := .Chargeback, client := client, id := id, amount := none, in_dispute := false }

/-- `Transaction::validate` (src/transaction.rs, lines 92-103). -/
def Transaction.validate (t : Transaction) : Bool :=
  match t.typ with
  | .Deposit | .Withdrawal => t.amount.isSome
  | .Dispute | .Resolve | .Chargeback => t.amount.isNone && !t.in_dispute

/-- `Transaction::is_disputed` (src/transaction.rs, lines 128-130). -/
def Transaction.is_disputed (t : Transaction) : Bool :=
  t.in_dispute

/-- `Transaction::set_disputed` (src/transaction.rs, lines 135-141): only
deposits and withdrawals can be marked as disputed. -/
def Transaction.set_disputed (t : Transaction) : Transaction :=
  match t.typ with
  | .Deposit | .Withdrawal => { t with in_dispute := true }
  | _ => t

/-- `Transaction::clear_disputed` (src/transaction.rs, lines 144-150). -/
def Transaction.clear_disputed (t : Transaction) : Transaction :=
  match t.typ with
  | .Deposit | .Withdrawal => { t with in_dispute := false }
  | _ => t

/-- Lookup in an association list, modelling `HashMap::get`. -/
def findA {α β : Type} [DecidableEq α] : List (α × β) → α → Option β
  | [], _ => none
  | p :: ps, k => if p.1 = k then some p.2 else findA ps k

/-- Insertion into an association list, modelling `HashMap::insert`:
replaces the value in place when the key is present, appends otherwise. -/
def insertA {α β : Type} [DecidableEq α] : List (α × β) → α → β → List (α × β)
  | [], k, v => [(k, v)]
  | p :: ps, k, v => if p.1 = k then (k, v) :: ps else p :: insertA ps k v

/-- `TransactionProcessor` (src/processor.rs, lines 11-14): the client
collection and the stored transaction history. -/
structure TransactionProcessor where
  clients : List (ClientID × Client)
  transactions : List (TransactionID × Transaction)
  deriving DecidableEq, Repr

/-- `TransactionProcessorErr` (src/processor.rs, lines 18-21).  Only the
`TransactionValidateError` variant is reachable in the model, which takes
already-decoded records as input; `CSVError` belongs to the decoding glue. -/
inductive TransactionProcessorErr where
  | TransactionValidateError : Transaction → TransactionProcessorErr
  deriving DecidableEq, Repr

/-- `TransactionProcessor::new` (src/processor.rs, lines 25-30). -/
def TransactionProcessor.new : TransactionProcessor :=
  { clients := [], transactions := [] }

/-- The `match trans.get_type()` body of `TransactionProcessor::process_transaction`
(src/processor.rs, lines 70-113), parameterized by the client collection after
lazy creation (`clients0`) and by the resolved client entry (`client`), which
the caller guarantees to be the value stored in `clients0` under
`trans.client`.  `get_amount().unwrap()` is modelled as `Option.getD _ 0`;
every call site in the claims below supplies a present amount, where the
two agree. -/
def TransactionProcessor.dispatch (tp : TransactionProcessor)
    (clients0 : List (ClientID × Client)) (client : Client)
    (trans : Transaction) : TransactionProcessor :=
  match trans.typ with
  | .Deposit =>
    { clients := insertA clients0 trans.client (client.add_funds (trans.amount.getD 0)).2,
      transactions := insertA tp.transactions trans.id trans }
  | .Withdrawal =>
    { clients := insertA clients0 trans.client (client.remove_funds (trans.amount.getD 0)).2,
      transactions :=
        if (client.remove_funds (trans.amount.getD 0)).1 then
          insertA tp.transactions trans.id trans
        else tp.transactions }
  | .Dispute =>
    match findA tp.transactions trans.id with
    | some trans_other =>
      { clients := insertA clients0 trans.client
          (client.hold_funds (trans_other.amount.getD 0)).2,
        transactions := insertA tp.transactions trans.id trans_other.set_disputed }
    | none => { clients := clients0, transactions := tp.transactions }
  | .Resolve =>
    match findA tp.transactions trans.id with
    | some trans_other =>
      if trans_other.is_disputed then
        { clients := insertA clients0 trans.client
            (client.restore_funds (trans_other.amount.getD 0)).2,
          transactions := insertA tp.transactions trans.id trans_other.clear_disputed }
      else { clients := clients0, transactions := tp.transactions }
    | none => { clients := clients0, transactions := tp.transactions }
  | .Chargeback =>
    match findA tp.transactions trans.id with
    | some trans_other =>
      if trans_other.is_disputed then
        { clients := insertA clients0 trans.client
            (((client.restore_funds (trans_other.amount.getD 0)).2.remove_funds
                (trans_other.amount.getD 0)).2.lock),
          transactions := insertA tp.transactions trans.id trans_other.clear_disputed }
      else { clients := clients0, transactions := tp.transactions }
    | none => { clients := clients0, transactions := tp.transactions }

/-- `TransactionProcessor::process_transaction` (src/processor.rs, lines
56-114): the client is created if it does not already exist, then the
transaction is dispatched on its type.  In the source the client is looked up
again after the insertion; here the result of that second lookup is written
out directly (the freshly inserted `Client::new` in the `none` branch, the
found entry otherwise). -/
def TransactionProcessor.process_transaction (tp : TransactionProcessor)
    (trans : Transaction) : TransactionProcessor :=
  match findA tp.clients trans.client with
  | none =>
    tp.dispatch (insertA tp.clients trans.client (Client.new trans.client))
      (Client.new trans.client) trans
  | some c => tp.dispatch tp.clients c trans

/-- `TransactionProcessor::process_csv_stream` (src/processor.rs, lines 33-51)
restricted to its in-scope core: the input is the stream of already-decoded
transaction records; each record is validated and, on failure, the whole run
aborts with `TransactionValidateError` before the record is processed. -/
def TransactionProcessor.process_csv_stream (tp : TransactionProcessor) :
    List Transaction → Except TransactionProcessorErr TransactionProcessor
  | [] => .ok tp
  | t :: ts =>
    if t.validate then (tp.process_transaction t).process_csv_stream ts
    else .error (.TransactionValidateError t)

/-- Processing a whole stream of transactions from the empty processor,
ignoring validation (`process_transaction` applied in arrival order). -/
def processAll (ts : List Transaction) : TransactionProcessor :=
  ts.foldl TransactionProcessor.process_transaction TransactionProcessor.new

/-! ### Association-list lemmas -/

theorem findA_insertA_self {α β : Type} [DecidableEq α] (m : List (α × β)) (k : α) (v : β) :
    findA (insertA m k v) k = some v := by
  induction m with
  | nil => simp [insertA, findA]
  | cons p ps ih =>
    by_cases hp : p.1 = k
    · simp [insertA, hp, findA]
    · simp [insertA, hp, findA, ih]

theorem findA_insertA_ne {α β : Type} [DecidableEq α] (m : List (α × β)) (k c : α) (v : β)
    (hc : c ≠ k) : findA (insertA m k v) c = findA m c := by
  induction m with
  | nil =>
    have h1 : ¬ k = c := fun h => hc h.symm
    simp [insertA, findA, h1]
  | cons p ps ih =>
    by_cases hp : p.1 = k
    · have h1 : ¬ k = c := fun h => hc h.symm
      have h2 : ¬ p.1 = c := by rw [hp]; exact h1
      simp [insertA, hp, findA, h1, h2]
    · simp [insertA, hp, findA, ih]

theorem insertA_findA_eq {α β : Type} [DecidableEq α] (m : List (α × β)) (k : α) (v : β)
    (h : findA m k = some v) : insertA m k v = m := by
  induction m with
  | nil => simp [findA] at h
  | cons p ps ih =>
    obtain ⟨p1, p2⟩ := p
    by_cases hp : p1 = k
    · simp only [findA, hp, if_pos] at h
      simp only [insertA]
      rw [if_pos hp]
      injection h with h
      rw [hp, h]
    · simp only [findA] at h
      rw [if_neg hp] at h
      simp only [insertA]
      rw [if_neg hp, ih h]

theorem mem_insertA {α β : Type} [DecidableEq α] {m : List (α × β)} {k : α} {v : β}
    {p : α × β} (h : p ∈ insertA m k v) : p ∈ m ∨ p = (k, v) := by
  induction m with
  | nil =>
    simp [insertA] at h
    exact Or.inr h
  | cons q qs ih =>
    by_cases hq : q.1 = k
    · rw [insertA, if_pos hq] at h
      rcases List.mem_cons.1 h with h | h
      · exact Or.inr h
      · exact Or.inl (List.mem_cons_of_mem q h)
    · rw [insertA, if_neg hq] at h
      rcases List.mem_cons.1 h with h | h
      · exact Or.inl (h ▸ List.mem_cons_self q qs)
      · rcases ih h with h' | h'
        · exact Or.inl (List.mem_cons_of_mem q h')
        · exact Or.inr h'

theorem findA_mem {α β : Type} [DecidableEq α] {m : List (α × β)} {k : α} {v : β}
    (h : findA m k = some v) : (k, v) ∈ m := by
  induction m with
  | nil => simp [findA] at h
  | cons p ps ih =>
    obtain ⟨p1, p2⟩ := p
    by_cases hp : p1 = k
    · simp only [findA] at h
      rw [if_pos hp] at h
      injection h with h
      rw [← hp, ← h]
      exact List.mem_cons_self _ _
    · simp only [findA] at h
      rw [if_neg hp] at h
      exact List.mem_cons_of_mem _ (ih h)

theorem findA_eq_none_iff {α β : Type} [DecidableEq α] (m : List (α × β)) (k : α) :
    findA m k = none ↔ k ∉ m.map Prod.fst := by
  induction m with
  | nil => simp [findA]
  | cons p ps ih =>
    simp only [findA, List.map_cons, List.mem_cons]
    by_cases hp : p.1 = k
    · rw [if_pos hp]
      simp [hp]
    · rw [if_neg hp, ih]
      constructor
      · rintro h (h1 | h1)
        · exact hp h1.symm
        · exact h h1
      · intro h h1
        exact h (Or.inr h1)

theorem findA_isSome_iff {α β : Type} [DecidableEq α] (m : List (α × β)) (k : α) :
    (findA m k).isSome = true ↔ k ∈ m.map Prod.fst := by
  constructor
  · intro h
    by_contra hk
    rw [(findA_eq_none_iff m k).2 hk] at h
    simp at h
  · intro h
    rcases hs : findA m k with _ | v
    · exact absurd h ((findA_eq_none_iff m k).1 hs)
    · rfl

theorem keys_insertA_present {α β : Type} [DecidableEq α] (m : List (α × β)) (k : α) (v : β)
    (h : (findA m k).isSome = true) : (insertA m k v).map Prod.fst = m.map Prod.fst := by
  induction m with
  | nil => simp [findA] at h
  | cons p ps ih =>
    by_cases hp : p.1 = k
    · simp [insertA, hp]
    · simp only [findA] at h
      rw [if_neg hp] at h
      simp [insertA, hp, ih h]

theorem keys_insertA_absent {α β : Type} [DecidableEq α] (m : List (α × β)) (k : α) (v : β)
    (h : findA m k = none) : (insertA m k v).map Prod.fst = m.map Prod.fst ++ [k] := by
  induction m with
  | nil => simp [insertA]
  | cons p ps ih =>
    by_cases hp : p.1 = k
    · simp only [findA] at h
      rw [if_pos hp] at h
      exact Option.noConfusion h
    · simp only [findA] at h
      rw [if_neg hp] at h
      simp [insertA, hp, ih h]

theorem nodup_keys_insertA {α β : Type} [DecidableEq α] (m : List (α × β)) (k : α) (v : β)
    (h : (m.map Prod.fst).Nodup) : ((insertA m k v).map Prod.fst).Nodup := by
  rcases hs : findA m k with _ | v'
  · rw [keys_insertA_absent m k v hs]
    have hk : k ∉ m.map Prod.fst := (findA_eq_none_iff m k).1 hs
    rw [List.nodup_append]
    refine ⟨h, List.nodup_singleton k, ?_⟩
    intro a ha hak
    rw [List.mem_singleton] at hak
    exact hk (hak ▸ ha)
  · rw [keys_insertA_present m k v (by rw [hs]; rfl)]
    exact h

/-! ### The ledger balance invariant -/

/-- The ledger invariant of the spec: total equals available plus held. -/
def Client.balanced (c : Client) : Prop :=
  c.total = c.available + c.held

theorem balanced_new (id : ClientID) : (Client.new id).balanced := by
  simp [Client.new, Client.balanced]

theorem balanced_add_funds {c : Client} (h : c.balanced) (a : ℚ) :
    ((c.add_funds a).2).balanced := by
  unfold Client.add_funds
  split
  · simp only [Client.balanced] at h ⊢
    rw [h]; ring
  · exact h

theorem balanced_remove_funds {c : Client} (h : c.balanced) (a : ℚ) :
    ((c.remove_funds a).2).balanced := by
  unfold Client.remove_funds
  split
  · simp only [Client.balanced] at h ⊢
    rw [h]; ring
  · exact h

theorem balanced_hold_funds {c : Client} (h : c.balanced) (a : ℚ) :
    ((c.hold_funds a).2).balanced := by
  unfold Client.hold_funds
  split
  · simp only [Client.balanced] at h ⊢
    rw [h]; ring
  · exact h

theorem balanced_restore_funds {c : Client} (h : c.balanced) (a : ℚ) :
    ((c.restore_funds a).2).balanced := by
  unfold Client.restore_funds
  split
  · simp only [Client.balanced] at h ⊢
    rw [h]; ring
  · exact h

theorem balanced_lock {c : Client} (h : c.balanced) : c.lock.balanced := by
  simpa [Client.lock, Client.balanced] using h

theorem dispatch_balanced (tp : TransactionProcessor) (clients0 : List (ClientID × Client))
    (client : Client) (trans : Transaction)
    (h0 : ∀ p ∈ clients0, (p.2 : Client).balanced) (hc : client.balanced) :
    ∀ p ∈ (tp.dispatch clients0 client trans).clients, (p.2 : Client).balanced := by
  intro p hp
  unfold TransactionProcessor.dispatch at hp
  split at hp
  · rcases mem_insertA hp with h | h
    · exact h0 p h
    · rw [h]; exact balanced_add_funds hc _
  · rcases mem_insertA hp with h | h
    · exact h0 p h
    · rw [h]; exact balanced_remove_funds hc _
  · split at hp
    · rcases mem_insertA hp with h | h
      · exact h0 p h
      · rw [h]; exact balanced_hold_funds hc _
    · exact h0 p hp
  · split at hp
    · split at hp
      · rcases mem_insertA hp with h | h
        · exact h0 p h
        · rw [h]; exact balanced_restore_funds hc _
      · exact h0 p hp
    · exact h0 p hp
  · split at hp
    · split at hp
      · rcases mem_insertA hp with h | h
        · exact h0 p h
        · rw [h]
          exact balanced_lock (balanced_remove_funds (balanced_restore_funds hc _) _)
      · exact h0 p hp
    · exact h0 p hp

theorem process_transaction_balanced (tp : TransactionProcessor) (trans : Transaction)
    (h0 : ∀ p ∈ tp.clients, (p.2 : Client).balanced) :
    ∀ p ∈ (tp.process_transaction trans).clients, (p.2 : Client).balanced := by
  unfold TransactionProcessor.process_transaction
  split
  · refine dispatch_balanced _ _ _ _ ?_ (balanced_new _)
    intro p hp
    rcases mem_insertA hp with h | h
    · exact h0 p h
    · rw [h]; exact balanced_new _
  · next c hfind => exact dispatch_balanced _ _ _ _ h0 (h0 _ (findA_mem hfind))

theorem processList_balanced (ts : List Transaction) (tp : TransactionProcessor)
    (h0 : ∀ p ∈ tp.clients, (p.2 : Client).balanced) :
    ∀ p ∈ (ts.foldl TransactionProcessor.process_transaction tp).clients,
      (p.2 : Client).balanced := by
  induction ts generalizing tp with
  | nil => exact h0
  | cons t ts ih =>
    exact ih _ (process_transaction_balanced tp t h0)

/-- C1: for every sequence of processed transactions, every account in the
ledger satisfies total = available + held after the sequence is applied;
the proof goes through preservation of the equation by each of
Client.add_funds, Client.remove_funds, Client.hold_funds,
Client.restore_funds and Client.lock. -/
theorem C1_total_eq_available_plus_held (ts : List Transaction) (p : ClientID × Client)
    (hp : p ∈ (processAll ts).clients) : p.2.total = p.2.available + p.2.held :=
  processList_balanced ts TransactionProcessor.new
    (by simp [TransactionProcessor.new]) p hp

theorem C1_total_eq_available_plus_held_witness :
    ((1 : ClientID), ({ id := 1, available := 100, held := 0, total := 100, locked := false } : Client)) ∈ (processAll [Transaction.new_deposit 1 1 100 false]).clients ∧
    ({ id := 1, available := 100, held := 0, total := 100, locked := false } : Client).total = ({ id := 1, available := 100, held := 0, total := 100, locked := false } : Client).available + ({ id := 1, available := 100, held := 0, total := 100, locked := false } : Client).held := by
  have hmem : ((1 : ClientID), ({ id := 1, available := 100, held := 0, total := 100, locked := false } : Client)) ∈ (processAll [Transaction.new_deposit 1 1 100 false]).clients := by
    norm_num [processAll, TransactionProcessor.process_transaction,
      TransactionProcessor.dispatch, TransactionProcessor.new, findA, insertA,
      Client.new, Client.add_funds, Transaction.new_deposit]
  exact ⟨hmem,
    C1_total_eq_available_plus_held [Transaction.new_deposit 1 1 100 false] _ hmem⟩

/-- C7: a Withdrawal whose amount exceeds the account's available funds at the
time of processing changes nothing at all: the processor state, balances and
stored history included, is left exactly as it was. -/
theorem C7_insufficient_withdrawal_no_effect (tp : TransactionProcessor)
    (w : Transaction) (A : ℚ) (cl : Client)
    (htyp : w.typ = .Withdrawal) (hamt : w.amount = some A)
    (hcl : findA tp.clients w.client = some cl) (hlt : cl.available < A) :
    tp.process_transaction w = tp := by
  have hfail : cl.remove_funds (w.amount.getD 0) = (false, cl) := by
    rw [hamt]
    unfold Client.remove_funds
    rw [if_neg]
    rintro ⟨hge, -⟩
    exact absurd hlt (not_lt.2 hge)
  simp only [TransactionProcessor.process_transaction, hcl,
    TransactionProcessor.dispatch, htyp, hfail, Bool.false_eq_true, if_false,
    insertA_findA_eq tp.clients w.client cl hcl]

theorem C7_insufficient_withdrawal_no_effect_witness :
    (processAll [Transaction.new_deposit 1 1 100 false]).process_transaction (Transaction.new_withdrawl 1 2 200 false) = processAll [Transaction.new_deposit 1 1 100 false] := by
  refine C7_insufficient_withdrawal_no_effect _ _ 200 { id := 1, available := 100, held := 0, total := 100, locked := false } rfl rfl ?_ ?_
  · norm_num [processAll, TransactionProcessor.process_transaction,
      TransactionProcessor.dispatch, TransactionProcessor.new, findA, insertA,
      Client.new, Client.add_funds, Transaction.new_deposit, Transaction.new_withdrawl]
  · norm_num

/-- C2 counterexample: after deposit/dispute/chargeback locks account 1, a
further deposit (tx 2) against the locked account IS stored in the history —
the Deposit arm inserts the record without inspecting the result of
add_funds — and a later Dispute of tx 2 finds the record and marks it
disputed.  This contradicts the claim that the deposit record is not stored
and that a later Dispute finds no match. -/
theorem C2_locked_deposit_counterexample :
    findA (processAll [Transaction.new_deposit 1 1 100 false, Transaction.new_dispute 1 1, Transaction.new_chargeback 1 1]).clients 1 = some { id := 1, available := 0, held := 0, total := 0, locked := true } ∧
    findA ((processAll [Transaction.new_deposit 1 1 100 false, Transaction.new_dispute 1 1, Transaction.new_chargeback 1 1]).process_transaction (Transaction.new_deposit 1 2 50 false)).transactions 2 = some (Transaction.new_deposit 1 2 50 false) ∧
    findA (((processAll [Transaction.new_deposit 1 1 100 false, Transaction.new_dispute 1 1, Transaction.new_chargeback 1 1]).process_transaction (Transaction.new_deposit 1 2 50 false)).process_transaction (Transaction.new_dispute 1 2)).transactions 2 = some { typ := .Deposit, client := 1, id := 2, amount := some 50, in_dispute := true } := by
  norm_num [processAll, TransactionProcessor.process_transaction,
    TransactionProcessor.dispatch, TransactionProcessor.new, findA, insertA,
    Client.new, Client.add_funds, Client.remove_funds, Client.hold_funds,
    Client.restore_funds, Client.lock, Transaction.new_deposit,
    Transaction.new_dispute, Transaction.new_chargeback,
    Transaction.set_disputed, Transaction.clear_disputed, Transaction.is_disputed]

/-- C2 amended: processing a Deposit against a locked account leaves every
balance unchanged, but the deposit record IS stored in the transaction
history; a later Dispute referencing that deposit therefore finds a match:
the still-locked account's balances remain unchanged, while the stored
record's in_dispute flag is set to true. -/
theorem C2_locked_deposit_amended (tp : TransactionProcessor) (t d : Transaction)
    (cl : Client)
    (hcl : findA tp.clients t.client = some cl) (hlk : cl.locked = true)
    (htyp : t.typ = .Deposit) (hamt : t.amount.isSome = true)
    (hd1 : d.typ = .Dispute) (hd2 : d.id = t.id) (hd3 : d.client = t.client) :
    (tp.process_transaction t).clients = tp.clients ∧
    findA (tp.process_transaction t).transactions t.id = some t ∧
    ((tp.process_transaction t).process_transaction d).clients = tp.clients ∧
    findA ((tp.process_transaction t).process_transaction d).transactions t.id = some { t with in_dispute := true } := by
  have hadd : cl.add_funds (t.amount.getD 0) = (false, cl) := by
    unfold Client.add_funds
    rw [hlk]
    simp
  have h1 : tp.process_transaction t = { clients := tp.clients, transactions := insertA tp.transactions t.id t } := by
    simp only [TransactionProcessor.process_transaction, hcl,
      TransactionProcessor.dispatch, htyp, hadd,
      insertA_findA_eq tp.clients t.client cl hcl]
  have hhold : cl.hold_funds (t.amount.getD 0) = (false, cl) := by
    unfold Client.hold_funds
    rw [hlk]
    simp
  have h2 : (tp.process_transaction t).process_transaction d = { clients := tp.clients, transactions := insertA (insertA tp.transactions t.id t) t.id t.set_disputed } := by
    rw [h1]
    simp only [TransactionProcessor.process_transaction, hd3, hcl,
      TransactionProcessor.dispatch, hd1, hd2, findA_insertA_self, hhold,
      insertA_findA_eq tp.clients t.client cl hcl]
  refine ⟨by rw [h1], ?_, by rw [h2], ?_⟩
  · rw [h1]
    exact findA_insertA_self _ _ _
  · rw [h2]
    rw [findA_insertA_self]
    simp only [Transaction.set_disputed, htyp]

theorem C2_locked_deposit_amended_witness :
    ((processAll [Transaction.new_deposit 1 1 100 false, Transaction.new_dispute 1 1, Transaction.new_chargeback 1 1]).process_transaction (Transaction.new_deposit 1 2 50 false)).clients = (processAll [Transaction.new_deposit 1 1 100 false, Transaction.new_dispute 1 1, Transaction.new_chargeback 1 1]).clients ∧
    findA ((processAll [Transaction.new_deposit 1 1 100 false, Transaction.new_dispute 1 1, Transaction.new_chargeback 1 1]).process_transaction (Transaction.new_deposit 1 2 50 false)).transactions 2 = some (Transaction.new_deposit 1 2 50 false) ∧
    (((processAll [Transaction.new_deposit 1 1 100 false, Transaction.new_dispute 1 1, Transaction.new_chargeback 1 1]).process_transaction (Transaction.new_deposit 1 2 50 false)).process_transaction (Transaction.new_dispute 1 2)).clients = (processAll [Transaction.new_deposit 1 1 100 false, Transaction.new_dispute 1 1, Transaction.new_chargeback 1 1]).clients ∧
    findA (((processAll [Transaction.new_deposit 1 1 100 false, Transaction.new_dispute 1 1, Transaction.new_chargeback 1 1]).process_transaction (Transaction.new_deposit 1 2 50 false)).process_transaction (Transaction.new_dispute 1 2)).transactions 2 = some { (Transaction.new_deposit 1 2 50 false) with in_dispute := true } := by
  refine C2_locked_deposit_amended _ _ _ { id := 1, available := 0, held := 0, total := 0, locked := true } ?_ rfl rfl rfl rfl rfl rfl
  norm_num [processAll, TransactionProcessor.process_transaction,
    TransactionProcessor.dispatch, TransactionProcessor.new, findA, insertA,
    Client.new, Client.add_funds, Client.remove_funds, Client.hold_funds,
    Client.restore_funds, Client.lock, Transaction.new_deposit,
    Transaction.new_dispute, Transaction.new_chargeback,
    Transaction.set_disputed, Transaction.clear_disputed, Transaction.is_disputed]

/-! ### Which accounts exist after processing -/

theorem dispatch_clients_cases (tp : TransactionProcessor)
    (clients0 : List (ClientID × Client)) (client : Client) (trans : Transaction) :
    (tp.dispatch clients0 client trans).clients = clients0 ∨
    ∃ v, (tp.dispatch clients0 client trans).clients = insertA clients0 trans.client v := by
  unfold TransactionProcessor.dispatch
  split
  · exact Or.inr ⟨_, rfl⟩
  · exact Or.inr ⟨_, rfl⟩
  · split
    · exact Or.inr ⟨_, rfl⟩
    · exact Or.inl rfl
  · split
    · split
      · exact Or.inr ⟨_, rfl⟩
      · exact Or.inl rfl
    · exact Or.inl rfl
  · split
    · split
      · exact Or.inr ⟨_, rfl⟩
      · exact Or.inl rfl
    · exact Or.inl rfl

theorem process_transaction_keys (tp : TransactionProcessor) (t : Transaction)
    (c : ClientID) :
    (findA (tp.process_transaction t).clients c).isSome = true ↔
    ((findA tp.clients c).isSome = true ∨ c = t.client) := by
  unfold TransactionProcessor.process_transaction
  split
  · rcases dispatch_clients_cases tp _ (Client.new t.client) t with h | ⟨v, h⟩
    · rw [h]
      by_cases hc : c = t.client
      · subst hc
        simp [findA_insertA_self]
      · rw [findA_insertA_ne _ _ _ _ hc]
        simp [hc]
    · rw [h]
      by_cases hc : c = t.client
      · subst hc
        simp [findA_insertA_self]
      · rw [findA_insertA_ne _ _ _ _ hc, findA_insertA_ne _ _ _ _ hc]
        simp [hc]
  · next cl hf =>
    rcases dispatch_clients_cases tp tp.clients cl t with h | ⟨v, h⟩
    · rw [h]
      constructor
      · exact Or.inl
      · rintro (h1 | h1)
        · exact h1
        · subst h1
          rw [hf]
          rfl
    · rw [h]
      by_cases hc : c = t.client
      · subst hc
        simp [findA_insertA_self]
      · rw [findA_insertA_ne _ _ _ _ hc]
        simp [hc]

theorem process_transaction_keys_nodup (tp : TransactionProcessor) (t : Transaction)
    (h : ((tp.clients).map Prod.fst).Nodup) :
    (((tp.process_transaction t).clients).map Prod.fst).Nodup := by
  unfold TransactionProcessor.process_transaction
  split
  · rcases dispatch_clients_cases tp _ (Client.new t.client) t with heq | ⟨v, heq⟩ <;>
      rw [heq]
    · exact nodup_keys_insertA _ _ _ h
    · exact nodup_keys_insertA _ _ _ (nodup_keys_insertA _ _ _ h)
  · rcases dispatch_clients_cases tp tp.clients _ t with heq | ⟨v, heq⟩ <;> rw [heq]
    · exact h
    · exact nodup_keys_insertA _ _ _ h

theorem processList_keys (ts : List Transaction) (tp : TransactionProcessor)
    (c : ClientID) :
    (findA (ts.foldl TransactionProcessor.process_transaction tp).clients c).isSome = true ↔
    ((findA tp.clients c).isSome = true ∨ c ∈ ts.map Transaction.client) := by
  induction ts generalizing tp with
  | nil => simp
  | cons t ts ih =>
    simp only [List.foldl_cons, List.map_cons, List.mem_cons]
    rw [ih, process_transaction_keys]
    tauto

theorem processList_keys_nodup (ts : List Transaction) (tp : TransactionProcessor)
    (h : ((tp.clients).map Prod.fst).Nodup) :
    (((ts.foldl TransactionProcessor.process_transaction tp).clients).map Prod.fst).Nodup := by
  induction ts generalizing tp with
  | nil => exact h
  | cons t ts ih =>
    exact ih _ (process_transaction_keys_nodup tp t h)

/-- C3 counterexample: a stream consisting of one Dispute — whose account ID
is referenced by no Deposit or Withdrawal at all — still creates the account
lazily, so the exported collection contains a row for client 1, contradicting
the claim that no row exists for an account referenced only by
Dispute/Resolve/Chargeback transactions. -/
theorem C3_snapshot_rows_counterexample :
    findA (processAll [Transaction.new_dispute 1 99]).clients 1 = some (Client.new 1) := by
  norm_num [processAll, TransactionProcessor.process_transaction,
    TransactionProcessor.dispatch, TransactionProcessor.new, findA, insertA,
    Transaction.new_dispute]

/-- C3 amended: the exported client collection has exactly one row per
distinct account ID referenced by ANY processed transaction (the account is
created lazily for all five transaction types, not only for Deposit and
Withdrawal): an account ID has a row iff it appears as the client field of
some processed transaction, and the collection's keys contain no duplicate. -/
theorem C3_snapshot_rows_amended (ts : List Transaction) :
    (∀ c : ClientID, (findA (processAll ts).clients c).isSome = true ↔
      c ∈ ts.map Transaction.client) ∧
    (((processAll ts).clients).map Prod.fst).Nodup := by
  constructor
  · intro c
    rw [processAll, processList_keys]
    simp [TransactionProcessor.new, findA]
  · exact processList_keys_nodup ts TransactionProcessor.new
      (by simp [TransactionProcessor.new])

/-- C6 counterexample: deposit tx 1, dispute it and charge it back, locking
account 1; a further deposit (tx 2, amount 50) is stored although the account
is locked.  Disputing tx 2 then finds the stored deposit, but hold_funds
fails on the locked account: held stays 0 instead of increasing by 50, so
the claim's unconditional "increases held by A" is false. -/
theorem C6_dispute_counterexample :
    findA (processAll [Transaction.new_deposit 1 1 100 false, Transaction.new_dispute 1 1, Transaction.new_chargeback 1 1, Transaction.new_deposit 1 2 50 false]).transactions 2 = some (Transaction.new_deposit 1 2 50 false) ∧
    findA (processAll [Transaction.new_deposit 1 1 100 false, Transaction.new_dispute 1 1, Transaction.new_chargeback 1 1, Transaction.new_deposit 1 2 50 false]).clients 1 = some { id := 1, available := 0, held := 0, total := 0, locked := true } ∧
    findA ((processAll [Transaction.new_deposit 1 1 100 false, Transaction.new_dispute 1 1, Transaction.new_chargeback 1 1, Transaction.new_deposit 1 2 50 false]).process_transaction (Transaction.new_dispute 1 2)).clients 1 = some { id := 1, available := 0, held := 0, total := 0, locked := true } := by
  norm_num [processAll, TransactionProcessor.process_transaction,
    TransactionProcessor.dispatch, TransactionProcessor.new, findA, insertA,
    Client.new, Client.add_funds, Client.remove_funds, Client.hold_funds,
    Client.restore_funds, Client.lock, Transaction.new_deposit,
    Transaction.new_dispute, Transaction.new_chargeback,
    Transaction.set_disputed, Transaction.clear_disputed, Transaction.is_disputed]

/-- C6 amended: when the Dispute's account is unlocked, a Dispute referencing
a stored Deposit of amount A increases held by A, decreases available by A,
leaves total unchanged and marks the stored record disputed. -/
theorem C6_dispute_amended (tp : TransactionProcessor) (d t0 : Transaction)
    (A : ℚ) (cl : Client)
    (hd : d.typ = .Dispute)
    (hst : findA tp.transactions d.id = some t0)
    (ht0 : t0.typ = .Deposit)
    (hamt : t0.amount = some A)
    (hcl : findA tp.clients d.client = some cl)
    (hlk : cl.locked = false) :
    findA (tp.process_transaction d).clients d.client = some { cl with available := cl.available - A, held := cl.held + A } ∧
    findA (tp.process_transaction d).transactions d.id = some { t0 with in_dispute := true } := by
  have hhold : cl.hold_funds (t0.amount.getD 0) = (true, { cl with available := cl.available - A, held := cl.held + A }) := by
    rw [hamt]
    unfold Client.hold_funds
    rw [if_pos hlk]
    rfl
  constructor
  · simp only [TransactionProcessor.process_transaction, hcl,
      TransactionProcessor.dispatch, hd, hst, hhold, findA_insertA_self]
  · simp only [TransactionProcessor.process_transaction, hcl,
      TransactionProcessor.dispatch, hd, hst, hhold, findA_insertA_self,
      Transaction.set_disputed, ht0]

theorem C6_dispute_amended_witness :
    findA ((processAll [Transaction.new_deposit 1 1 100 false]).process_transaction (Transaction.new_dispute 1 1)).clients 1 = some { id := 1, available := 0, held := 100, total := 100, locked := false } ∧
    findA ((processAll [Transaction.new_deposit 1 1 100 false]).process_transaction (Transaction.new_dispute 1 1)).transactions 1 = some { typ := .Deposit, client := 1, id := 1, amount := some 100, in_dispute := true } := by
  obtain ⟨h1, h2⟩ := C6_dispute_amended (processAll [Transaction.new_deposit 1 1 100 false])
    (Transaction.new_dispute 1 1) (Transaction.new_deposit 1 1 100 false) 100
    { id := 1, available := 100, held := 0, total := 100, locked := false }
    rfl
    (by norm_num [processAll, TransactionProcessor.process_transaction,
      TransactionProcessor.dispatch, TransactionProcessor.new, findA, insertA,
      Client.new, Client.add_funds, Transaction.new_deposit, Transaction.new_dispute])
    rfl rfl
    (by norm_num [processAll, TransactionProcessor.process_transaction,
      TransactionProcessor.dispatch, TransactionProcessor.new, findA, insertA,
      Client.new, Client.add_funds, Transaction.new_deposit, Transaction.new_dispute])
    rfl
  simp only [Transaction.new_dispute, Transaction.new_deposit] at h1 h2 ⊢
  constructor
  · rw [h1]
    norm_num
  · exact h2

/-- C5 counterexample: deposit twice, dispute tx 1 and charge it back so
account 1 is locked with available = total = 50; then dispute tx 2 (the
stored deposit of 50 becomes in_dispute although the locked account's held
stays 0).  Resolving tx 2 then finds a stored, disputed record of amount 50,
yet restore_funds fails on the locked account: held and available are both
unchanged, so the claim's unconditional "held -= A, available += A" is
false. -/
theorem C5_resolve_counterexample :
    findA (processAll [Transaction.new_deposit 1 1 100 false, Transaction.new_deposit 1 2 50 false, Transaction.new_dispute 1 1, Transaction.new_chargeback 1 1, Transaction.new_dispute 1 2]).transactions 2 = some { typ := .Deposit, client := 1, id := 2, amount := some 50, in_dispute := true } ∧
    findA (processAll [Transaction.new_deposit 1 1 100 false, Transaction.new_deposit 1 2 50 false, Transaction.new_dispute 1 1, Transaction.new_chargeback 1 1, Transaction.new_dispute 1 2]).clients 1 = some { id := 1, available := 50, held := 0, total := 50, locked := true } ∧
    findA ((processAll [Transaction.new_deposit 1 1 100 false, Transaction.new_deposit 1 2 50 false, Transaction.new_dispute 1 1, Transaction.new_chargeback 1 1, Transaction.new_dispute 1 2]).process_transaction (Transaction.new_resolve 1 2)).clients 1 = some { id := 1, available := 50, held := 0, total := 50, locked := true } := by
  norm_num [processAll, TransactionProcessor.process_transaction,
    TransactionProcessor.dispatch, TransactionProcessor.new, findA, insertA,
    Client.new, Client.add_funds, Client.remove_funds, Client.hold_funds,
    Client.restore_funds, Client.lock, Transaction.new_deposit,
    Transaction.new_dispute, Transaction.new_chargeback, Transaction.new_resolve,
    Transaction.set_disputed, Transaction.clear_disputed, Transaction.is_disputed]

/-- C5 amended: when the Resolve's account is unlocked and holds at least A,
a Resolve referencing a stored disputed transaction of amount A decreases
held by A, increases available by A, leaves total unchanged and clears the
stored record's in_dispute flag. -/
theorem C5_resolve_amended (tp : TransactionProcessor) (r t0 : Transaction)
    (A : ℚ) (cl : Client)
    (hr : r.typ = .Resolve)
    (hst : findA tp.transactions r.id = some t0)
    (hdisp : t0.in_dispute = true)
    (htyp0 : t0.typ = .Deposit ∨ t0.typ = .Withdrawal)
    (hamt : t0.amount = some A)
    (hcl : findA tp.clients r.client = some cl)
    (hlk : cl.locked = false)
    (hheld : A ≤ cl.held) :
    findA (tp.process_transaction r).clients r.client = some { cl with available := cl.available + A, held := cl.held - A } ∧
    findA (tp.process_transaction r).transactions r.id = some { t0 with in_dispute := false } := by
  have hrest : cl.restore_funds (t0.amount.getD 0) = (true, { cl with available := cl.available + A, held := cl.held - A }) := by
    rw [hamt]
    unfold Client.restore_funds
    rw [if_pos ⟨hheld, hlk⟩]
    rfl
  have hclear : t0.clear_disputed = { t0 with in_dispute := false } := by
    rcases htyp0 with h | h <;> simp only [Transaction.clear_disputed, h]
  constructor
  · simp only [TransactionProcessor.process_transaction, hcl,
      TransactionProcessor.dispatch, hr, hst, Transaction.is_disputed, hdisp,
      if_true, hrest, findA_insertA_self]
  · simp only [TransactionProcessor.process_transaction, hcl,
      TransactionProcessor.dispatch, hr, hst, Transaction.is_disputed, hdisp,
      if_true, hrest, findA_insertA_self, hclear]

theorem C5_resolve_amended_witness :
    findA ((processAll [Transaction.new_deposit 1 1 100 false, Transaction.new_dispute 1 1]).process_transaction (Transaction.new_resolve 1 1)).clients 1 = some { id := 1, available := 100, held := 0, total := 100, locked := false } ∧
    findA ((processAll [Transaction.new_deposit 1 1 100 false, Transaction.new_dispute 1 1]).process_transaction (Transaction.new_resolve 1 1)).transactions 1 = some { typ := .Deposit, client := 1, id := 1, amount := some 100, in_dispute := false } := by
  obtain ⟨h1, h2⟩ := C5_resolve_amended
    (processAll [Transaction.new_deposit 1 1 100 false, Transaction.new_dispute 1 1])
    (Transaction.new_resolve 1 1)
    { typ := .Deposit, client := 1, id := 1, amount := some 100, in_dispute := true } 100
    { id := 1, available := 0, held := 100, total := 100, locked := false }
    rfl
    (by norm_num [processAll, TransactionProcessor.process_transaction,
      TransactionProcessor.dispatch, TransactionProcessor.new, findA, insertA,
      Client.new, Client.add_funds, Client.hold_funds, Transaction.new_deposit,
      Transaction.new_dispute, Transaction.new_resolve, Transaction.set_disputed])
    rfl (Or.inl rfl) rfl
    (by norm_num [processAll, TransactionProcessor.process_transaction,
      TransactionProcessor.dispatch, TransactionProcessor.new, findA, insertA,
      Client.new, Client.add_funds, Client.hold_funds, Transaction.new_deposit,
      Transaction.new_dispute, Transaction.new_resolve, Transaction.set_disputed])
    rfl (by norm_num)
  simp only [Transaction.new_resolve, Transaction.new_deposit] at h1 h2 ⊢
  constructor
  · rw [h1]
    norm_num
  · exact h2

/-- C4 counterexample: after deposit 100 (tx 1), deposit 50 (tx 2), dispute
tx 1, chargeback tx 1 (account 1 becomes locked with available = total = 50)
and dispute tx 2 (stored record of amount 50 becomes in_dispute while held
stays 0), a Chargeback of tx 2 meets the claim's precondition — stored
record, in_dispute = true, amount 50 — yet both restore_funds and
remove_funds fail on the locked account: held is NOT decreased by 50 and
total is NOT decreased by 50 (both balances are unchanged). -/
theorem C4_chargeback_counterexample :
    findA (processAll [Transaction.new_deposit 1 1 100 false, Transaction.new_deposit 1 2 50 false, Transaction.new_dispute 1 1, Transaction.new_chargeback 1 1, Transaction.new_dispute 1 2]).transactions 2 = some { typ := .Deposit, client := 1, id := 2, amount := some 50, in_dispute := true } ∧
    findA (processAll [Transaction.new_deposit 1 1 100 false, Transaction.new_deposit 1 2 50 false, Transaction.new_dispute 1 1, Transaction.new_chargeback 1 1, Transaction.new_dispute 1 2]).clients 1 = some { id := 1, available := 50, held := 0, total := 50, locked := true } ∧
    findA ((processAll [Transaction.new_deposit 1 1 100 false, Transaction.new_deposit 1 2 50 false, Transaction.new_dispute 1 1, Transaction.new_chargeback 1 1, Transaction.new_dispute 1 2]).process_transaction (Transaction.new_chargeback 1 2)).clients 1 = some { id := 1, available := 50, held := 0, total := 50, locked := true } := by
  norm_num [processAll, TransactionProcessor.process_transaction,
    TransactionProcessor.dispatch, TransactionProcessor.new, findA, insertA,
    Client.new, Client.add_funds, Client.remove_funds, Client.hold_funds,
    Client.restore_funds, Client.lock, Transaction.new_deposit,
    Transaction.new_dispute, Transaction.new_chargeback,
    Transaction.set_disputed, Transaction.clear_disputed, Transaction.is_disputed]

/-- C4 amended: when the Chargeback's account is unlocked, holds at least A
and has nonnegative available funds, a Chargeback referencing a stored
disputed transaction of amount A decreases held by A, decreases total by A,
leaves available unchanged, locks the account and clears the stored record's
in_dispute flag. -/
theorem C4_chargeback_amended (tp : TransactionProcessor) (cb t0 : Transaction)
    (A : ℚ) (cl : Client)
    (hcb : cb.typ = .Chargeback)
    (hst : findA tp.transactions cb.id = some t0)
    (hdisp : t0.in_dispute = true)
    (htyp0 : t0.typ = .Deposit ∨ t0.typ = .Withdrawal)
    (hamt : t0.amount = some A)
    (hcl : findA tp.clients cb.client = some cl)
    (hlk : cl.locked = false)
    (hheld : A ≤ cl.held)
    (havail : 0 ≤ cl.available) :
    (∃ cl', findA (tp.process_transaction cb).clients cb.client = some cl' ∧
      cl'.available = cl.available ∧ cl'.held = cl.held - A ∧
      cl'.total = cl.total - A ∧ cl'.locked = true) ∧
    findA (tp.process_transaction cb).transactions cb.id = some { t0 with in_dispute := false } := by
  have hrest : cl.restore_funds (t0.amount.getD 0) = (true, { cl with available := cl.available + A, held := cl.held - A }) := by
    rw [hamt]
    unfold Client.restore_funds
    rw [if_pos ⟨hheld, hlk⟩]
    rfl
  have hrem : ({ cl with available := cl.available + A, held := cl.held - A } : Client).remove_funds (t0.amount.getD 0) = (true, { cl with available := cl.available + A - A, held := cl.held - A, total := cl.total - A }) := by
    rw [hamt]
    unfold Client.remove_funds
    rw [if_pos ⟨(le_add_iff_nonneg_left A).2 havail, hlk⟩]
    rfl
  have hclear : t0.clear_disputed = { t0 with in_dispute := false } := by
    rcases htyp0 with h | h <;> simp only [Transaction.clear_disputed, h]
  have hres : findA (tp.process_transaction cb).clients cb.client = some { cl with available := cl.available + A - A, held := cl.held - A, total := cl.total - A, locked := true } := by
    simp only [TransactionProcessor.process_transaction, hcl,
      TransactionProcessor.dispatch, hcb, hst, Transaction.is_disputed, hdisp,
      if_true, hrest, hrem, Client.lock, findA_insertA_self]
  have htr : findA (tp.process_transaction cb).transactions cb.id = some { t0 with in_dispute := false } := by
    simp only [TransactionProcessor.process_transaction, hcl,
      TransactionProcessor.dispatch, hcb, hst, Transaction.is_disputed, hdisp,
      if_true, findA_insertA_self, hclear]
  refine ⟨⟨_, hres, ?_, rfl, rfl, rfl⟩, htr⟩
  show cl.available + A - A = cl.available
  ring

theorem C4_chargeback_amended_witness :
    (∃ cl', findA ((processAll [Transaction.new_deposit 1 1 100 false, Transaction.new_dispute 1 1]).process_transaction (Transaction.new_chargeback 1 1)).clients (Transaction.new_chargeback 1 1).client = some cl' ∧
      cl'.available = (0 : ℚ) ∧ cl'.held = (100 : ℚ) - 100 ∧
      cl'.total = (100 : ℚ) - 100 ∧ cl'.locked = true) ∧
    findA ((processAll [Transaction.new_deposit 1 1 100 false, Transaction.new_dispute 1 1]).process_transaction (Transaction.new_chargeback 1 1)).transactions (Transaction.new_chargeback 1 1).id = some { typ := .Deposit, client := 1, id := 1, amount := some 100, in_dispute := false } := by
  exact C4_chargeback_amended
    (processAll [Transaction.new_deposit 1 1 100 false, Transaction.new_dispute 1 1])
    (Transaction.new_chargeback 1 1)
    { typ := .Deposit, client := 1, id := 1, amount := some 100, in_dispute := true } 100
    { id := 1, available := 0, held := 100, total := 100, locked := false }
    rfl
    (by norm_num [processAll, TransactionProcessor.process_transaction,
      TransactionProcessor.dispatch, TransactionProcessor.new, findA, insertA,
      Client.new, Client.add_funds, Client.hold_funds, Transaction.new_deposit,
      Transaction.new_dispute, Transaction.new_chargeback, Transaction.set_disputed])
    rfl (Or.inl rfl) rfl
    (by norm_num [processAll, TransactionProcessor.process_transaction,
      TransactionProcessor.dispatch, TransactionProcessor.new, findA, insertA,
      Client.new, Client.add_funds, Client.hold_funds, Transaction.new_deposit,
      Transaction.new_dispute, Transaction.new_chargeback, Transaction.set_disputed])
    rfl (by norm_num) (by norm_num)

/-- C9: the Dispute arm never checks the stored record's in_dispute flag; on
an unlocked account, a second Dispute of an already-disputed stored
transaction of amount A holds the funds again: held increases by a further A
and available decreases by a further A, and the record is re-marked via
set_disputed. -/
theorem C9_double_dispute_holds_again (tp : TransactionProcessor) (d t0 : Transaction)
    (A : ℚ) (cl : Client)
    (hd : d.typ = .Dispute)
    (hst : findA tp.transactions d.id = some t0)
    (hdisp : t0.in_dispute = true)
    (hamt : t0.amount = some A)
    (hcl : findA tp.clients d.client = some cl)
    (hlk : cl.locked = false) :
    findA (tp.process_transaction d).clients d.client = some { cl with available := cl.available - A, held := cl.held + A } ∧
    findA (tp.process_transaction d).transactions d.id = some t0.set_disputed := by
  have hhold : cl.hold_funds (t0.amount.getD 0) = (true, { cl with available := cl.available - A, held := cl.held + A }) := by
    rw [hamt]
    unfold Client.hold_funds
    rw [if_pos hlk]
    rfl
  constructor
  · simp only [TransactionProcessor.process_transaction, hcl,
      TransactionProcessor.dispatch, hd, hst, hhold, findA_insertA_self]
  · simp only [TransactionProcessor.process_transaction, hcl,
      TransactionProcessor.dispatch, hd, hst, hhold, findA_insertA_self]

theorem C9_double_dispute_holds_again_witness :
    findA (((processAll [Transaction.new_deposit 1 1 100 false, Transaction.new_dispute 1 1]).process_transaction (Transaction.new_dispute 1 1)).clients) 1 = some { id := 1, available := -100, held := 200, total := 100, locked := false } ∧
    findA (((processAll [Transaction.new_deposit 1 1 100 false, Transaction.new_dispute 1 1]).process_transaction (Transaction.new_dispute 1 1)).transactions) 1 = some { typ := .Deposit, client := 1, id := 1, amount := some 100, in_dispute := true } := by
  obtain ⟨h1, h2⟩ := C9_double_dispute_holds_again
    (processAll [Transaction.new_deposit 1 1 100 false, Transaction.new_dispute 1 1])
    (Transaction.new_dispute 1 1)
    { typ := .Deposit, client := 1, id := 1, amount := some 100, in_dispute := true } 100
    { id := 1, available := 0, held := 100, total := 100, locked := false }
    rfl
    (by norm_num [processAll, TransactionProcessor.process_transaction,
      TransactionProcessor.dispatch, TransactionProcessor.new, findA, insertA,
      Client.new, Client.add_funds, Client.hold_funds, Transaction.new_deposit,
      Transaction.new_dispute, Transaction.set_disputed])
    rfl rfl
    (by norm_num [processAll, TransactionProcessor.process_transaction,
      TransactionProcessor.dispatch, TransactionProcessor.new, findA, insertA,
      Client.new, Client.add_funds, Client.hold_funds, Transaction.new_deposit,
      Transaction.new_dispute, Transaction.set_disputed])
    rfl
  simp only [Transaction.new_dispute, Transaction.set_disputed] at h1 h2 ⊢
  constructor
  · rw [h1]
    norm_num
  · exact h2

theorem process_transaction_clients_other (tp : TransactionProcessor) (t : Transaction)
    (k : ClientID) (hk : k ≠ t.client) :
    findA (tp.process_transaction t).clients k = findA tp.clients k := by
  unfold TransactionProcessor.process_transaction
  split
  · rcases dispatch_clients_cases tp _ (Client.new t.client) t with h | ⟨v, h⟩ <;> rw [h]
    · exact findA_insertA_ne _ _ _ _ hk
    · rw [findA_insertA_ne _ _ _ _ hk, findA_insertA_ne _ _ _ _ hk]
  · rcases dispatch_clients_cases tp tp.clients _ t with h | ⟨v, h⟩ <;> rw [h]
    exact findA_insertA_ne _ _ _ _ hk

/-- C10: Dispute/Resolve/Chargeback address the account named by the control
transaction's own client field, never the account owning the referenced
stored transaction: when the two differ, every account other than the
control's (in particular the stored record's owner's) is untouched, the
control's account exists afterwards (lazily created if absent), a Dispute
applies hold_funds to the control's account, and a Chargeback of a disputed
record locks the control's account. -/
theorem C10_control_mutates_own_client (tp : TransactionProcessor) (t t0 : Transaction)
    (hty : t.typ = .Dispute ∨ t.typ = .Resolve ∨ t.typ = .Chargeback)
    (hst : findA tp.transactions t.id = some t0)
    (hne : t0.client ≠ t.client) :
    (findA (tp.process_transaction t).clients t.client).isSome = true ∧
    (∀ k, k ≠ t.client → findA (tp.process_transaction t).clients k = findA tp.clients k) ∧
    findA (tp.process_transaction t).clients t0.client = findA tp.clients t0.client ∧
    (t.typ = .Dispute → findA (tp.process_transaction t).clients t.client = some (((findA tp.clients t.client).getD (Client.new t.client)).hold_funds (t0.amount.getD 0)).2) ∧
    (t.typ = .Chargeback → t0.in_dispute = true → ∃ cl', findA (tp.process_transaction t).clients t.client = some cl' ∧ cl'.locked = true) := by
  refine ⟨(process_transaction_keys tp t t.client).2 (Or.inr rfl),
    fun k hk => process_transaction_clients_other tp t k hk,
    process_transaction_clients_other tp t t0.client hne, ?_, ?_⟩
  · intro htd
    unfold TransactionProcessor.process_transaction
    split
    · next heq =>
      rw [heq]
      simp only [TransactionProcessor.dispatch, htd, hst, findA_insertA_self,
        Option.getD_none]
    · next cl heq =>
      rw [heq]
      simp only [TransactionProcessor.dispatch, htd, hst, findA_insertA_self,
        Option.getD_some]
  · intro htc hdisp
    unfold TransactionProcessor.process_transaction
    split
    · next heq =>
      simp only [TransactionProcessor.dispatch, htc, hst, Transaction.is_disputed,
        hdisp, if_true, findA_insertA_self]
      exact ⟨_, rfl, rfl⟩
    · next cl heq =>
      simp only [TransactionProcessor.dispatch, htc, hst, Transaction.is_disputed,
        hdisp, if_true, findA_insertA_self]
      exact ⟨_, rfl, rfl⟩

theorem C10_control_mutates_own_client_witness :
    (findA ((processAll [Transaction.new_deposit 1 1 100 false]).process_transaction (Transaction.new_dispute 2 1)).clients (Transaction.new_dispute 2 1).client).isSome = true ∧
    (∀ k, k ≠ (Transaction.new_dispute 2 1).client → findA ((processAll [Transaction.new_deposit 1 1 100 false]).process_transaction (Transaction.new_dispute 2 1)).clients k = findA (processAll [Transaction.new_deposit 1 1 100 false]).clients k) ∧
    findA ((processAll [Transaction.new_deposit 1 1 100 false]).process_transaction (Transaction.new_dispute 2 1)).clients (Transaction.new_deposit 1 1 100 false).client = findA (processAll [Transaction.new_deposit 1 1 100 false]).clients (Transaction.new_deposit 1 1 100 false).client ∧
    ((Transaction.new_dispute 2 1).typ = .Dispute → findA ((processAll [Transaction.new_deposit 1 1 100 false]).process_transaction (Transaction.new_dispute 2 1)).clients (Transaction.new_dispute 2 1).client = some (((findA (processAll [Transaction.new_deposit 1 1 100 false]).clients (Transaction.new_dispute 2 1).client).getD (Client.new (Transaction.new_dispute 2 1).client)).hold_funds ((Transaction.new_deposit 1 1 100 false).amount.getD 0)).2) ∧
    ((Transaction.new_dispute 2 1).typ = .Chargeback → (Transaction.new_deposit 1 1 100 false).in_dispute = true → ∃ cl', findA ((processAll [Transaction.new_deposit 1 1 100 false]).process_transaction (Transaction.new_dispute 2 1)).clients (Transaction.new_dispute 2 1).client = some cl' ∧ cl'.locked = true) := by
  exact C10_control_mutates_own_client
    (processAll [Transaction.new_deposit 1 1 100 false])
    (Transaction.new_dispute 2 1) (Transaction.new_deposit 1 1 100 false)
    (Or.inl rfl)
    (by norm_num [processAll, TransactionProcessor.process_transaction,
      TransactionProcessor.dispatch, TransactionProcessor.new, findA, insertA,
      Client.new, Client.add_funds, Transaction.new_deposit, Transaction.new_dispute])
    (by norm_num [Transaction.new_deposit, Transaction.new_dispute])

theorem process_csv_stream_failfast (tp : TransactionProcessor)
    (ts1 : List Transaction) (t : Transaction) (ts2 : List Transaction)
    (hv : ∀ u ∈ ts1, u.validate = true) (ht : t.validate = false) :
    tp.process_csv_stream (ts1 ++ t :: ts2) = .error (.TransactionValidateError t) := by
  induction ts1 generalizing tp with
  | nil =>
    rw [List.nil_append]
    simp only [TransactionProcessor.process_csv_stream, ht]
    simp
  | cons u us ih =>
    have hu : u.validate = true := hv u (List.mem_cons_self u us)
    rw [List.cons_append]
    simp only [TransactionProcessor.process_csv_stream, hu, if_true]
    exact ih _ (fun x hx => hv x (List.mem_cons_of_mem u hx))

/-- C8: validate is a pure function of the record's own fields — true for a
Deposit or Withdrawal iff the amount is present, true for a
Dispute/Resolve/Chargeback iff the amount is absent and in_dispute is false —
and process_csv_stream aborts with a validation error at the first record
whose validate is false, independent of (and without processing) every
record after it. -/
theorem C8_validate_and_failfast :
    (∀ t : Transaction, (t.typ = .Deposit ∨ t.typ = .Withdrawal) →
      (t.validate = true ↔ t.amount.isSome = true)) ∧
    (∀ t : Transaction, (t.typ = .Dispute ∨ t.typ = .Resolve ∨ t.typ = .Chargeback) →
      (t.validate = true ↔ (t.amount = none ∧ t.in_dispute = false))) ∧
    (∀ (tp : TransactionProcessor) (ts1 : List Transaction) (t : Transaction)
      (ts2 : List Transaction), (∀ u ∈ ts1, u.validate = true) → t.validate = false →
      tp.process_csv_stream (ts1 ++ t :: ts2) = .error (.TransactionValidateError t)) := by
  refine ⟨?_, ?_, fun tp ts1 t ts2 hv ht => process_csv_stream_failfast tp ts1 t ts2 hv ht⟩
  · intro t h
    rcases h with h | h <;> simp [Transaction.validate, h]
  · intro t h
    rcases h with h | h | h <;>
      simp [Transaction.validate, h, Option.isNone_iff_eq_none,
        Bool.and_eq_true, Bool.not_eq_true']

theorem C8_validate_and_failfast_witness :
    TransactionProcessor.new.process_csv_stream [Transaction.new_deposit 1 1 100 false, { typ := .Deposit, client := 1, id := 2, amount := none, in_dispute := false }, Transaction.new_withdrawl 1 3 5 false] = .error (.TransactionValidateError { typ := .Deposit, client := 1, id := 2, amount := none, in_dispute := false }) := by
  have h := C8_validate_and_failfast.2.2 TransactionProcessor.new
    [Transaction.new_deposit 1 1 100 false]
    { typ := .Deposit, client := 1, id := 2, amount := none, in_dispute := false }
    [Transaction.new_withdrawl 1 3 5 false]
    (by intro u hu
        rw [List.mem_singleton] at hu
        rw [hu]
        rfl)
    rfl
  exact h
